import Mathlib

/-!
Shallow embedding of the bitfinex-lending-bot repository, used to settle the
claims of its natural-language specification.

Conventions of the embedding:
* Python `float` and `Decimal` values are modelled as `ℚ`; all the arithmetic
  the claims depend on is exact in the source (comparisons, additions and
  multiplications of small decimal literals).
* Python strings are modelled as `String`; `str.upper` and `str.replace` are
  modelled character-wise (`pyUpper`, `stripF` below).
* Fallible lookups (repository finds, API calls) are modelled as `Option`
  arguments, and raised exceptions as `Except`.
* Timestamps irrelevant to the claims (`created_at`, `executed_at`,
  `completed_at`, trade ids) are omitted from the records; free-text
  `reasoning` strings built for display are likewise omitted.
-/

/-! ## Domain entities (src/src/domain/entities) -/

/-- Model of Python `s.startswith(pre)`: character-wise prefix test. -/
def pyStartsWith (s pre : String) : Bool := List.isPrefixOf pre.data s.data

/-- `LendingOffer` from src/src/domain/entities/lending_offer.py.
`amount` and `rate` are `Decimal` in the source, modelled as `ℚ`. -/
structure LendingOffer where
  id : Option String := none
  user_id : String := ""
  symbol : String := ""
  amount : ℚ := 0
  rate : ℚ := 0
  period : ℤ := 2
  status : String := "pending"
deriving DecidableEq

/-- The allowed funding periods hard-coded in `LendingOffer.is_valid`. -/
def allowedPeriods : List ℤ := [2, 7, 14, 30, 60, 90, 120, 180, 365]

/-- `LendingOffer.is_valid`: amount ≥ 150, rate > 0, period in the allowed
list, symbol starts with `f` and has length > 1. -/
def LendingOffer.is_valid (o : LendingOffer) : Bool :=
  (150 ≤ o.amount) && (0 < o.rate) && allowedPeriods.contains o.period &&
    pyStartsWith o.symbol "f" && (1 < o.symbol.length)

/-- `LendingOffer.daily_earnings = amount * rate`. -/
def LendingOffer.daily_earnings (o : LendingOffer) : ℚ := o.amount * o.rate

/-- `LendingOffer.annual_earnings = daily_earnings * 365`. -/
def LendingOffer.annual_earnings (o : LendingOffer) : ℚ := o.daily_earnings * 365

/-- `Portfolio` from src/src/domain/entities/portfolio.py. -/
structure Portfolio where
  user_id : String
  total_lent : ℚ := 0
  total_earned : ℚ := 0
  active_positions : List LendingOffer := []
  completed_positions : List LendingOffer := []
deriving DecidableEq

/-- `Portfolio.add_position`: an active offer is appended to
`active_positions` and increments `total_lent`; a completed offer is appended
to `completed_positions` (without touching the totals); any other status is
ignored. -/
def Portfolio.add_position (p : Portfolio) (o : LendingOffer) : Portfolio :=
  if o.status = "active" then
    { p with active_positions := p.active_positions ++ [o],
             total_lent := p.total_lent + o.amount }
  else if o.status = "completed" then
    { p with completed_positions := p.completed_positions ++ [o] }
  else p

/-- `Portfolio.calculate_daily_income`: sum of active positions' daily
earnings. -/
def Portfolio.calculate_daily_income (p : Portfolio) : ℚ :=
  (p.active_positions.map LendingOffer.daily_earnings).sum

/-- `Portfolio.calculate_total_return`: `total_earned / total_lent * 100`,
or 0 when nothing is lent. -/
def Portfolio.calculate_total_return (p : Portfolio) : ℚ :=
  if p.total_lent = 0 then 0 else p.total_earned / p.total_lent * 100

/-! ## GetPortfolioUseCase (src/src/application/use_cases/get_portfolio.py) -/

/-- One step of the loop body of `GetPortfolioUseCase._rebuild_portfolio`:
active offers are added; completed offers are added and additionally
increment `total_earned` by `daily_earnings() * period`. -/
def rebuildStep (acc : Portfolio) (o : LendingOffer) : Portfolio :=
  if o.status = "active" then acc.add_position o
  else if o.status = "completed" then
    let acc' := acc.add_position o
    { acc' with total_earned := acc'.total_earned + o.daily_earnings * (o.period : ℚ) }
  else acc

/-- `GetPortfolioUseCase._rebuild_portfolio`: clears both position lists,
zeroes both totals, then folds `rebuildStep` over the user's offers. -/
def rebuild_portfolio (p : Portfolio) (offers : List LendingOffer) : Portfolio :=
  offers.foldl rebuildStep
    { p with active_positions := [], completed_positions := [],
             total_lent := 0, total_earned := 0 }

/-- Numeric content of the `PortfolioSummary` DTO built by
`GetPortfolioUseCase.execute` (the source stringifies these figures; the
string conversion is injective on the underlying numbers and is omitted). -/
structure PortfolioSummary where
  total_lent : ℚ
  total_earned : ℚ
  active_positions_count : ℕ
  completed_positions_count : ℕ
  current_daily_income : ℚ
  total_return_percentage : ℚ
deriving DecidableEq

/-- The summary figures `GetPortfolioUseCase.execute` reads off the rebuilt
portfolio. -/
def summaryOf (p : Portfolio) : PortfolioSummary :=
  { total_lent := p.total_lent
    total_earned := p.total_earned
    active_positions_count := p.active_positions.length
    completed_positions_count := p.completed_positions.length
    current_daily_income := p.calculate_daily_income
    total_return_percentage := p.calculate_total_return }

/-- `GetPortfolioUseCase.execute`, summary part: load the stored portfolio
(creating a fresh one when absent), load the user's offers, rebuild, and
summarize.  `stored` models the result of `portfolio_repo.find_by_user_id`,
`offers` the result of `lending_offer_repo.find_by_user_id`. -/
def executeGetPortfolioSummary (userId : String) (stored : Option Portfolio)
    (offers : List LendingOffer) : PortfolioSummary :=
  let p0 := stored.getD { user_id := userId }
  summaryOf (rebuild_portfolio p0 offers)

/-! ## Domain service and submit use case
(src/src/domain/services/lending_service.py,
src/src/application/use_cases/submit_lending_offer.py) -/

/-- The slice of the `MarketData` entity used by `calculate_optimal_rate`
(the remaining fields — ask side, volumes, timestamps — play no role in the
claims and are omitted). -/
structure MarketData where
  symbol : String
  best_bid_rate : ℚ
deriving DecidableEq

/-- `LendingService.calculate_optimal_rate`: best bid rate scaled by
`(1 - risk_tolerance)` (default 0.05), floored at 0.00001. -/
def calculate_optimal_rate (md : MarketData) (risk_tolerance : ℚ := 5/100) : ℚ :=
  max (md.best_bid_rate * (1 - risk_tolerance)) (1/100000)

/-- `SubmitLendingOfferRequest` (rate is optional). -/
structure SubmitLendingOfferRequest where
  user_id : String
  symbol : String
  amount : ℚ
  rate : Option ℚ := none
  period : ℤ := 30
deriving DecidableEq

/-- Failure modes of `SubmitLendingOfferUseCase.execute` (raised as
`ValueError` in the source, with the messages
"No market data available for symbol ..." and
"Invalid lending offer parameters"). -/
inductive SubmitError where
  | noMarketData
  | invalidParameters
deriving DecidableEq

/-- `SubmitLendingOfferUseCase.execute` up to persistence: look up market
data (`mdLookup` models `market_data_repo.find_by_symbol`), resolve the rate
— the source computes `request.rate if request.rate else
calculate_optimal_rate(market_data)`, and a `Decimal` equal to 0 is falsy in
Python, so a supplied rate of exactly 0 also falls back to the optimal rate —
build the offer, validate it, and return it (the repository `save` that
assigns the id is outside the embedding). -/
def submitLendingOffer (mdLookup : Option MarketData)
    (req : SubmitLendingOfferRequest) : Except SubmitError LendingOffer :=
  match mdLookup with
  | none => .error .noMarketData
  | some md =>
    let rate : ℚ :=
      match req.rate with
      | some r => if r = 0 then calculate_optimal_rate md else r
      | none => calculate_optimal_rate md
    let offer : LendingOffer :=
      { id := none, user_id := req.user_id, symbol := req.symbol,
        amount := req.amount, rate := rate, period := req.period,
        status := "pending" }
    if offer.is_valid then .ok offer else .error .invalidParameters

/-! ## LendingApplicationService
(src/src/application/services/lending_application_service.py)

The service's `__init__` receives four collaborators but assigns only two
attributes: `self.submit_offer_usecase` and `self.get_portfolio_usecase`.
In Python, reading any other attribute on the instance raises
`AttributeError`.  We model the instance's attribute table by the list of
names `__init__` assigns, and an attribute read as a guarded lookup. -/

/-- A Python `AttributeError`, the only exception relevant here. -/
inductive PyError where
  | attributeError
deriving DecidableEq

/-- The attribute names assigned by `LendingApplicationService.__init__`
(lines 15–27 of the source: exactly the two use-case attributes; the
constructor parameters `lending_offer_repo`, `portfolio_repo`,
`market_data_repo`, `lending_service` are passed to the use cases but never
stored on `self`). -/
def lendingApplicationServiceAttributes : List String :=
  ["submit_offer_usecase", "get_portfolio_usecase"]

/-- `LendingApplicationService.cancel_lending_offer`: the body is
`return self.lending_offer_repo.update_status(offer_id, "cancelled")`.
`updateStatus` models the offer repository's `update_status` method; the
attribute read `self.lending_offer_repo` is modelled by the lookup guard. -/
def cancel_lending_offer (updateStatus : String → String → Bool)
    (offer_id : String) : Except PyError Bool :=
  if lendingApplicationServiceAttributes.contains "lending_offer_repo" then
    .ok (updateStatus offer_id "cancelled")
  else
    .error .attributeError

/-! ## Symbol and balance reconciliation helpers (src/cli.py)

`pyUpper` and `stripF` model the Python expressions `s.upper()` and
`s.replace('F', '')` character-wise: `str.upper` upcases every character and
`str.replace('F', '')` deletes **every** occurrence of `'F'`, not only a
leading funding prefix. -/

/-- Model of Python `str.upper` (character-wise upcasing; ASCII currency
symbols only ever appear here). -/
def pyUpper (s : String) : String := ⟨s.data.map Char.toUpper⟩

/-- Model of Python `str.replace('F', '')`: every `'F'` character is
removed. -/
def stripF (s : String) : String := ⟨s.data.filter (fun c => c ≠ 'F')⟩

/-- A resting funding offer as consumed by `_get_pending_offers_total`
(only `symbol` and `amount` are read via `getattr`). -/
structure FundingOfferRec where
  symbol : String
  amount : ℚ
deriving DecidableEq

/-- The accumulation loop shared by both branches of
`_get_pending_offers_total`: starting from `0.0`, add the amount of every
offer whose `symbol.upper().replace('F', '')` equals the uppercased target
symbol. -/
def totalPendingLoop (symbol : String) (offers : List FundingOfferRec) : ℚ :=
  offers.foldl
    (fun acc o => if stripF (pyUpper o.symbol) = pyUpper symbol then acc + o.amount else acc) 0

/-- `FundingLendingAutomation._get_pending_offers_total`:
query offers filtered by symbol first (`offersForSymbol` models that call's
result, `none` = call failed / returned `None`); a non-empty result is
summed with `totalPendingLoop`; otherwise fall back to querying all offers
(`allOffers`) and filter locally with the same loop; if both are empty or
absent, return `0.0`.  The `except` path returning `None` is outside the
embedding (it depends on a raised exception, not on the data). -/
def getPendingOffersTotal (symbol : String)
    (offersForSymbol : Option (List FundingOfferRec))
    (allOffers : Option (List FundingOfferRec)) : Option ℚ :=
  match offersForSymbol with
  | some (o :: os) => some (totalPendingLoop symbol (o :: os))
  | _ =>
    match allOffers with
    | some (o :: os) => some (totalPendingLoop symbol (o :: os))
    | _ => some 0

/-- A wallet row as consumed by `_get_funding_wallet_balance` (the source
reads only `currency` and `available_balance` via `getattr`; the wallet
`type` attribute exists on the exchange's wallet objects but is **not**
read). -/
structure WalletRec where
  wallet_type : String
  currency : String
  available_balance : ℚ
deriving DecidableEq

/-- `FundingLendingAutomation._get_funding_wallet_balance`: scan the wallet
list and return the `available_balance` of the first wallet whose
`currency.upper()` equals `symbol.upper()`; `None` when the list is absent,
empty, or has no match.  No wallet-type filter appears in the source. -/
def getFundingWalletBalance (symbol : String)
    (wallets : Option (List WalletRec)) : Option ℚ :=
  match wallets with
  | none => none
  | some ws =>
    (ws.find? (fun w => pyUpper w.currency = pyUpper symbol)).map
      (fun w => w.available_balance)

/-! ## Order laddering (src/cli.py, `generate_order_strategy`)

`LendingOrder` is one rung of the ladder.  The balance known to the loop —
either the `effective_balance` argument or the wallet balance fetched through
the authenticated client — is modelled by the single `Option ℚ` argument
`availableBalance` (`none` when neither is available). -/

/-- `LendingOrder` dataclass from src/cli.py. -/
structure LendingOrder where
  amount : ℚ
  daily_rate : ℚ
  period_days : ℤ
  yearly_rate : ℚ
deriving DecidableEq

/-- The order built at 0-based ladder index `i`:
rate `base + i * interval`, yearly rate `rate * 365`. -/
def ladderOrder (baseRate rateInterval : ℚ) (period : ℤ) (amount : ℚ)
    (i : ℕ) : LendingOrder :=
  let rate := baseRate + (i : ℚ) * rateInterval
  { amount := amount, daily_rate := rate, period_days := period,
    yearly_rate := rate * 365 }

/-- The per-order loop of `generate_order_strategy` over the precomputed
amount list: order `i` is scaled by `(1 + amount_increment_factor * i)`; with
a known balance, an order whose inclusion would push the running total past
the balance is shrunk to the exact remaining headroom when that headroom is
at least 150 (and the loop stops), and otherwise it and everything after it
is dropped; after a normal append the loop also stops once the running total
has reached the balance. -/
def buildOrders (baseRate rateInterval : ℚ) (period : ℤ) (f : ℚ)
    (bal : Option ℚ) : List ℚ → ℕ → ℚ → List LendingOrder
  | [], _, _ => []
  | a :: rest, i, tot =>
    let adjusted := a * (1 + f * (i : ℚ))
    let tot' := tot + adjusted
    match bal with
    | none =>
      ladderOrder baseRate rateInterval period adjusted i ::
        buildOrders baseRate rateInterval period f none rest (i + 1) tot'
    | some b =>
      if b < tot' then
        if 150 ≤ b - tot then [ladderOrder baseRate rateInterval period (b - tot) i]
        else []
      else
        ladderOrder baseRate rateInterval period adjusted i ::
          (if b ≤ tot' then []
           else buildOrders baseRate rateInterval period f (some b) rest (i + 1) tot')

/-- Add `x` to the last element of a list (Python `order_amounts[-1] += x`;
the empty case cannot be reached with a positive order count). -/
def addToLast (x : ℚ) : List ℚ → List ℚ
  | [] => []
  | [a] => [a + x]
  | a :: rest => a :: addToLast x rest

/-- The amount list of `generate_order_strategy` before the per-order loop.
Strict mode (`allow_small_orders = False`): `floor(total / min_order)` whole
orders capped at `max_orders`, the remainder folded into the last order.
Allow-small mode: a trailing partial order is kept when it is ≥ 150,
otherwise folded into the preceding whole order; a sub-`min_order` total
becomes one single order; the list is then capped at `max_orders` with any
truncated remainder folded into the new last order. -/
def orderAmounts (totalAmount minOrder : ℚ) (maxOrders : ℕ)
    (allowSmallOrders : Bool) : List ℚ :=
  if allowSmallOrders then
    let numFull := (⌊totalAmount / minOrder⌋).toNat
    let remaining := totalAmount - numFull * minOrder
    let amounts :=
      if 150 ≤ remaining then List.replicate numFull minOrder ++ [remaining]
      else if 0 < numFull then
        List.replicate (numFull - 1) minOrder ++ [minOrder + remaining]
      else [totalAmount]
    if maxOrders < amounts.length then
      let kept := amounts.take maxOrders
      let rem2 := totalAmount - kept.sum
      if 0 < rem2 then addToLast rem2 kept else kept
    else amounts
  else
    let numFull := (⌊totalAmount / minOrder⌋).toNat
    let numOrders := min numFull maxOrders
    if numOrders = 0 then []
    else
      let remaining := totalAmount - numOrders * minOrder
      let amounts := List.replicate numOrders minOrder
      if 0 < remaining then addToLast remaining amounts else amounts

/-- `FundingLendingAutomation.generate_order_strategy`.
`baseRate` is `recommendation.recommended_daily_rate`, `rateInterval` is the
engine's `self.rate_interval`.  Totals below the effective minimum
(`min_order`, or the 150 exchange floor in allow-small mode) yield no
orders. -/
def generate_order_strategy (baseRate rateInterval : ℚ)
    (totalAmount minOrder : ℚ) (maxOrders : ℕ) (targetPeriod : ℤ)
    (allowSmallOrders : Bool) (amountIncrementFactor : ℚ)
    (availableBalance : Option ℚ) : List LendingOrder :=
  let effectiveMinOrder := if allowSmallOrders then 150 else minOrder
  if totalAmount < effectiveMinOrder then []
  else
    buildOrders baseRate rateInterval targetPeriod amountIncrementFactor
      availableBalance (orderAmounts totalAmount minOrder maxOrders allowSmallOrders) 0 0

/-- The balance-capping mechanism exactly as the specification words it,
applied to an already-built order list: walk the orders keeping a running
total; the first order whose inclusion would cross the balance is replaced
by one of the exact remaining headroom when that headroom is ≥ 150 and is
dropped (with everything after it) otherwise; an order that lands exactly on
the balance is kept and ends the walk.  Used to compare the balance-aware
run against the balance-free run. -/
def truncateToBalance (b : ℚ) : List LendingOrder → ℚ → List LendingOrder
  | [], _ => []
  | o :: rest, tot =>
    let tot' := tot + o.amount
    if b < tot' then
      if 150 ≤ b - tot then [{ o with amount := b - tot }] else []
    else
      o :: (if b ≤ tot' then [] else truncateToBalance b rest tot')

/-! ## Market-rate analysis (src/cli.py, `analyze_market_rates`,
`analyze_tiered_market`, `generate_recommendation`)

Inputs: the public funding book (rows `[rate, period, count, amount]`) and
the recent trades (`[id, mts, amount, rate, period]`; id and timestamp are
unused and omitted).  The optional market signals fetched best-effort from
the analyzer enter only through `liquidity_score`; `none` models both a
fetch failure (the `{'error': ...}` dict) and a missing key, and is read
with default 0.5. -/

/-- One funding-book row.  `count` is the integral order count carried by
the wire format (the source applies `int(...)` to it). -/
structure BookEntry where
  rate : ℚ
  period : ℤ
  count : ℤ
  amount : ℚ
deriving DecidableEq

/-- One funding trade (id and millisecond timestamp omitted: unused). -/
structure TradeEntry where
  amount : ℚ
  rate : ℚ
  period : ℤ
deriving DecidableEq

/-- The book rows `analyze_market_rates` keeps: the first 100 entries with
`amount > 0` (treated as lending offers by this module). -/
def bookRows (book : List BookEntry) : List BookEntry :=
  (book.take 100).filter (fun e => 0 < e.amount)

/-- The trade rows kept: trades with `amount > 0` (the source fetches at
most 200 of them; `trades` is that fetched list). -/
def tradeRows (trades : List TradeEntry) : List TradeEntry :=
  trades.filter (fun t => 0 < t.amount)

/-- The rate samples accumulated for period `p`: book rates first (in book
order), then trade rates. -/
def ratesFor (book : List BookEntry) (trades : List TradeEntry) (p : ℤ) : List ℚ :=
  ((bookRows book).filter (fun e => e.period = p)).map (fun e => e.rate) ++
    ((tradeRows trades).filter (fun t => t.period = p)).map (fun t => t.rate)

/-- The volume samples for period `p`, parallel to `ratesFor`: a book row
contributes its (positive) amount, a trade its `abs(amount)` (equal to the
amount on the kept rows). -/
def volumesFor (book : List BookEntry) (trades : List TradeEntry) (p : ℤ) : List ℚ :=
  ((bookRows book).filter (fun e => e.period = p)).map (fun e => e.amount) ++
    ((tradeRows trades).filter (fun t => t.period = p)).map (fun t => |t.amount|)

/-- The order count for period `p`: the sum of the book rows' `int(count)`
fields plus one per trade. -/
def countFor (book : List BookEntry) (trades : List TradeEntry) (p : ℤ) : ℤ :=
  (((bookRows book).filter (fun e => e.period = p)).map (fun e => e.count)).sum +
    ((tradeRows trades).filter (fun t => t.period = p)).length

/-- `self.lowest_offer_rate`: the lowest rate among the kept book rows
(tracked across all periods), `none` when no row qualifies. -/
def lowestOfferRate (book : List BookEntry) : Option ℚ :=
  (bookRows book).foldl
    (fun acc e =>
      match acc with
      | none => some e.rate
      | some r => if e.rate < r then some e.rate else some r)
    none

/-- Python `max(l)` on a (nonempty) list. -/
def pyMax (l : List ℚ) : ℚ :=
  match l with
  | [] => 0
  | h :: t => t.foldl max h

/-- Python `min(l)` on a (nonempty) list. -/
def pyMin (l : List ℚ) : ℚ :=
  match l with
  | [] => 0
  | h :: t => t.foldl min h

/-- Python `sorted(l)` on rationals: any stable ascending sort of a list of
plain values; insertion sort produces exactly Python's result. -/
def pySortAsc (l : List ℚ) : List ℚ := l.insertionSort (fun a b => a ≤ b)

/-- Python `sorted(l, reverse=True)` on rationals. -/
def pySortDesc (l : List ℚ) : List ℚ := l.insertionSort (fun a b => b ≤ a)

/-- `sorted_rates[len(sorted_rates) // 2]`: the upper-median picker used
throughout the module. -/
def pyMedian (l : List ℚ) : ℚ := (pySortAsc l).getD (l.length / 2) 0

/-- `MarketRateStats` dataclass from src/cli.py. -/
structure MarketRateStats where
  period_days : ℤ
  avg_daily_rate : ℚ
  max_daily_rate : ℚ
  min_daily_rate : ℚ
  median_daily_rate : ℚ
  volume_weighted_avg_daily_rate : ℚ
  count : ℤ
  total_volume : ℚ
  avg_yearly_rate : ℚ
  max_yearly_rate : ℚ
  min_yearly_rate : ℚ
  median_yearly_rate : ℚ
  volume_weighted_avg_yearly_rate : ℚ
  top_3_rates : List ℚ
deriving DecidableEq

/-- The statistics record `analyze_market_rates` builds for one period from
its accumulated rates, volumes and count (only reached when `rates` is
nonempty; the rates and volumes lists always have equal length by
construction, one entry of each per contribution). -/
def mkStats (p : ℤ) (rates volumes : List ℚ) (count : ℤ) : MarketRateStats :=
  let avg := rates.sum / (rates.length : ℚ)
  let mx := pyMax rates
  let mn := pyMin rates
  let med := pyMedian rates
  let totalVolume := if volumes.isEmpty then 0 else volumes.sum
  let vw :=
    if ¬volumes.isEmpty ∧ volumes.length = rates.length then
      if 0 < volumes.sum then
        ((rates.zip volumes).map (fun rv => rv.1 * rv.2)).sum / volumes.sum
      else avg
    else avg
  { period_days := p
    avg_daily_rate := avg
    max_daily_rate := mx
    min_daily_rate := mn
    median_daily_rate := med
    volume_weighted_avg_daily_rate := vw
    count := count
    total_volume := totalVolume
    avg_yearly_rate := avg * 365
    max_yearly_rate := mx * 365
    min_yearly_rate := mn * 365
    median_yearly_rate := med * 365
    volume_weighted_avg_yearly_rate := vw * 365
    top_3_rates := (pySortDesc rates).take 3 }

/-- `analyze_market_rates` as a keyed lookup: `some` statistics exactly for
the periods that accumulated at least one rate sample. -/
def analyze_market_rates (book : List BookEntry) (trades : List TradeEntry)
    (p : ℤ) : Option MarketRateStats :=
  if ratesFor book trades p = [] then none
  else some (mkStats p (ratesFor book trades p) (volumesFor book trades p)
    (countFor book trades p))

/-- The fixed tier table of `analyze_tiered_market`. -/
def tierDefinitions : List (String × List ℤ) :=
  [("2d", [2]), ("14d", [7, 14]), ("30d", [30]), ("60d", [60]),
   ("90d", [90]), ("120d+", [120, 180, 365])]

/-- `HighYieldOpportunity`: the dict recorded for an exact period ≥ 30 days
whose max yearly rate is ≥ 0.15 and whose total volume exceeds 1000. -/
structure HighYieldOpportunity where
  tier : String
  period : ℤ
  max_apy : ℚ
  volume_weighted_rate : ℚ
  volume_weighted_apy : ℚ
  total_volume : ℚ
  order_count : ℤ
deriving DecidableEq

/-- The opportunity record built from period `p`'s statistics. -/
def mkOpportunity (tierName : String) (p : ℤ) (s : MarketRateStats) :
    HighYieldOpportunity :=
  { tier := tierName, period := p, max_apy := s.max_yearly_rate,
    volume_weighted_rate := s.volume_weighted_avg_daily_rate,
    volume_weighted_apy := s.volume_weighted_avg_yearly_rate,
    total_volume := s.total_volume, order_count := s.count }

/-- The high-yield test applied while scanning a tier's member periods. -/
def isHighYield (p : ℤ) (s : MarketRateStats) : Prop :=
  30 ≤ p ∧ 15/100 ≤ s.max_yearly_rate ∧ 1000 < s.total_volume

instance (p : ℤ) (s : MarketRateStats) : Decidable (isHighYield p s) := by
  unfold isHighYield; infer_instance

/-- The opportunities flagged while scanning one tier, in member-period
order. -/
def tierOpportunities (stats : ℤ → Option MarketRateStats) (tierName : String)
    (periods : List ℤ) : List HighYieldOpportunity :=
  periods.filterMap (fun p =>
    match stats p with
    | some s => if isHighYield p s then some (mkOpportunity tierName p s) else none
    | none => none)

/-- The pooled rate samples of a tier: each member period's average rate
repeated `count` times (`[x] * n` is empty for a non-positive `n`). -/
def tierRates (stats : ℤ → Option MarketRateStats) (periods : List ℤ) : List ℚ :=
  periods.flatMap (fun p =>
    match stats p with
    | some s => List.replicate s.count.toNat s.avg_daily_rate
    | none => [])

/-- The pooled "volume" samples of a tier: each member period's
volume-weighted average rate repeated `count` times. -/
def tierVolumes (stats : ℤ → Option MarketRateStats) (periods : List ℤ) : List ℚ :=
  periods.flatMap (fun p =>
    match stats p with
    | some s => List.replicate s.count.toNat s.volume_weighted_avg_daily_rate
    | none => [])

/-- Python `max` over a tier's fixed period list (always nonempty). -/
def pyMaxInt (l : List ℤ) : ℤ :=
  match l with
  | [] => 0
  | h :: t => t.foldl max h

/-- The statistics record built for a tier from its pooled samples (only
reached when `tierRates` is nonempty). -/
def mkTierStats (stats : ℤ → Option MarketRateStats) (periods : List ℤ) :
    MarketRateStats :=
  let rates := tierRates stats periods
  let volumes := tierVolumes stats periods
  let avg := rates.sum / (rates.length : ℚ)
  let vw := if volumes.isEmpty then avg else volumes.sum / (volumes.length : ℚ)
  let allTierRates := periods.flatMap (fun p =>
    match stats p with
    | some s => s.top_3_rates
    | none => [])
  let counts := (periods.filterMap (fun p => (stats p).map (fun s => s.count))).sum
  let totalVolume :=
    (periods.filterMap (fun p => (stats p).map (fun s => s.total_volume))).sum
  { period_days := pyMaxInt periods
    avg_daily_rate := avg
    max_daily_rate := pyMax rates
    min_daily_rate := pyMin rates
    median_daily_rate := pyMedian rates
    volume_weighted_avg_daily_rate := vw
    count := counts
    total_volume := totalVolume
    avg_yearly_rate := avg * 365
    max_yearly_rate := pyMax rates * 365
    min_yearly_rate := pyMin rates * 365
    median_yearly_rate := pyMedian rates * 365
    volume_weighted_avg_yearly_rate := vw * 365
    top_3_rates := ((allTierRates.dedup).insertionSort (fun a b => b ≤ a)).take 3 }

/-- The tier table in insertion order: a tier is present exactly when its
pooled rate list is nonempty. -/
def tiersOf (stats : ℤ → Option MarketRateStats) :
    List (String × MarketRateStats) :=
  tierDefinitions.filterMap (fun d =>
    if tierRates stats d.2 = [] then none else some (d.1, mkTierStats stats d.2))

/-- The unsorted high-yield list: tier scans concatenated in tier order. -/
def rawOpportunities (stats : ℤ → Option MarketRateStats) :
    List HighYieldOpportunity :=
  tierDefinitions.flatMap (fun d => tierOpportunities stats d.1 d.2)

/-- The descending ordering used by
`high_yield_opportunities.sort(key=lambda x: (x['volume_weighted_apy'],
x['total_volume']), reverse=True)`: `a` precedes `b` when `a`'s key tuple is
lexicographically at least `b`'s (a stable insertion sort with this relation
produces exactly Python's stable descending sort). -/
def oppGE (a b : HighYieldOpportunity) : Prop :=
  b.volume_weighted_apy < a.volume_weighted_apy ∨
    (a.volume_weighted_apy = b.volume_weighted_apy ∧ b.total_volume ≤ a.total_volume)

instance : DecidableRel oppGE := fun a b => by unfold oppGE; infer_instance

/-- The sorted high-yield list stored in the analysis. -/
def sortedOpportunities (stats : ℤ → Option MarketRateStats) :
    List HighYieldOpportunity :=
  (rawOpportunities stats).insertionSort oppGE

/-- The numeric value `int(x.rstrip('d+'))` assigned to a tier name when
choosing the shortest available tier. -/
def tierNumericValue (name : String) : ℤ :=
  if name = "2d" then 2 else if name = "14d" then 14
  else if name = "30d" then 30 else if name = "60d" then 60
  else if name = "90d" then 90 else if name = "120d+" then 120 else 0

/-- Python `min(keys, key=tierNumericValue)`: the first key with minimal
value, in iteration (insertion) order. -/
def minTierKey : List (String × MarketRateStats) → String
  | [] => "2d"
  | (n, _) :: rest =>
    rest.foldl (fun best d =>
      if tierNumericValue d.1 < tierNumericValue best then d.1 else best) n

/-- `TieredMarketAnalysis` dataclass.  `liquidity_score` carries the only
market-signal entry the recommendation logic reads (`none` models both the
signal-fetch failure and a missing key). -/
structure TieredMarketAnalysis where
  symbol : String
  tiers : List (String × MarketRateStats)
  high_yield_opportunities : List HighYieldOpportunity
  recommended_tier : String
  recommended_approach : String
  liquidity_score : Option ℚ
deriving DecidableEq

/-- `FundingLendingAutomation.analyze_tiered_market`. -/
def analyze_tiered_market (symbol : String) (book : List BookEntry)
    (trades : List TradeEntry) (liquidity : Option ℚ) : TieredMarketAnalysis :=
  let stats := analyze_market_rates book trades
  let tiers := tiersOf stats
  let opps := sortedOpportunities stats
  let recommendedTier :=
    match opps with
    | best :: _ => best.tier
    | [] =>
      if (tiers.map Prod.fst).contains "2d" = false ∧ tiers ≠ [] then
        minTierKey tiers
      else "2d"
  let approach := if opps.isEmpty then "standard" else "high_yield"
  { symbol := symbol, tiers := tiers, high_yield_opportunities := opps,
    recommended_tier := recommendedTier, recommended_approach := approach,
    liquidity_score := liquidity }

/-- `LendingRecommendation` dataclass (reasoning text omitted). -/
structure LendingRecommendation where
  symbol : String
  recommended_daily_rate : ℚ
  recommended_yearly_rate : ℚ
  market_max_rate : ℚ
  increment : ℚ
  confidence_score : ℚ
deriving DecidableEq

/-- The conservative default recommendation returned when no tier exists
(daily 0.001, yearly 0.365, increment 0.0001, confidence 0); the dead final
fallback of `generate_recommendation` builds the identical record. -/
def defaultRecommendation (symbol : String) : LendingRecommendation :=
  { symbol := symbol, recommended_daily_rate := 1/1000,
    recommended_yearly_rate := 365/1000, market_max_rate := 1/1000,
    increment := 1/10000, confidence_score := 0 }

/-- The confidence score of the standard branches:
`max(0.1, min(1, count / 20) + (liquidity_score - 0.5))`. -/
def recommendationConfidence (count : ℤ) (liq : ℚ) : ℚ :=
  max (1/10) (min 1 ((count : ℚ) / 20) + (liq - 1/2))

/-- Python `min(tiers.keys(), key=...)` combined with the subsequent
`tiers[shortest_tier]` lookup: the first entry with the numerically
shortest tier name (tier names are unique, so picking the minimal entry and
indexing the minimal key agree). -/
def minTierEntry : List (String × MarketRateStats) →
    Option (String × MarketRateStats)
  | [] => none
  | d :: rest =>
    some (rest.foldl
      (fun best e => if tierNumericValue e.1 < tierNumericValue best.1 then e else best) d)

/-- `FundingLendingAutomation.generate_recommendation` (the `target_period`
argument is unused by the source body).  Branch order as in the source:
empty tier table → conservative default; any high-yield opportunity → adopt
its volume-weighted rate with zero increment and confidence 0.95; a captured
lowest offer rate plus a `2d` tier → market-anchored base (scaled ×1.05 in
low liquidity); a `2d` tier alone → median − 0.0001 floored at the tier
minimum (scaled ×0.9 in low liquidity), increment −0.0001; otherwise the
numerically shortest tier's median.  The final `else` of the source is dead
code (the empty-tier case already returned) and is mirrored by the
unreachable `none` arm of `minTierEntry`. -/
def generate_recommendation (symbol : String) (book : List BookEntry)
    (trades : List TradeEntry) (liquidity : Option ℚ) : LendingRecommendation :=
  let ta := analyze_tiered_market symbol book trades liquidity
  if ta.tiers = [] then defaultRecommendation symbol
  else
    match ta.high_yield_opportunities with
    | best :: _ =>
      { symbol := symbol,
        recommended_daily_rate := best.volume_weighted_rate,
        recommended_yearly_rate := best.volume_weighted_apy,
        market_max_rate := best.volume_weighted_rate,
        increment := 0, confidence_score := 95/100 }
    | [] =>
      let liq := ta.liquidity_score.getD (1/2)
      match ta.tiers.lookup "2d" with
      | some ts =>
        (match lowestOfferRate book with
         | some base =>
           let r := if liq < 3/10 then base * (105/100) else base
           { symbol := symbol, recommended_daily_rate := r,
             recommended_yearly_rate := r * 365,
             market_max_rate := ts.max_daily_rate, increment := 0,
             confidence_score := recommendationConfidence ts.count liq }
         | none =>
           let adjustment : ℚ := -(1/10000)
           let r0 := max (ts.median_daily_rate + adjustment) ts.min_daily_rate
           let r := if liq < 3/10 then r0 * (9/10) else r0
           { symbol := symbol, recommended_daily_rate := r,
             recommended_yearly_rate := r * 365,
             market_max_rate := ts.max_daily_rate, increment := adjustment,
             confidence_score := recommendationConfidence ts.count liq })
      | none =>
        match minTierEntry ta.tiers with
        | some e =>
          { symbol := symbol,
            recommended_daily_rate := e.2.median_daily_rate,
            recommended_yearly_rate := e.2.median_daily_rate * 365,
            market_max_rate := e.2.max_daily_rate, increment := 0,
            confidence_score := recommendationConfidence e.2.count liq }
        | none => defaultRecommendation symbol

/-! ## Rate limiter (src/cli.py, `RateLimiter`)

Modelled as a discrete-event system: `wait_if_needed` is a function of the
limiter state and the wall-clock time `now` at which the call enters the
lock, returning the new state and the time at which the call returns (i.e.
`now` plus the sleeps it performed).  `time.time()` values are `ℚ` seconds;
`int(time.time() * 1000)` truncation is modelled with `⌊·⌋` (times here are
nonnegative, where floor and Python `int` agree, and the rounding never
feeds the claims' bound). -/

/-- The `RateLimiter` state: per-minute quota, millisecond minimum spacing,
the sliding window of recorded call times, and the last-call millisecond
stamp. -/
structure RateLimiterState where
  max_calls_per_minute : ℕ
  min_interval_ms : ℤ
  calls : List ℚ
  last_call_time : ℤ

/-- `RateLimiter.wait_if_needed`.  In order: prune window entries older
than 60 s; sleep any missing minimum inter-call spacing; if the pruned
window is at quota, sleep until the oldest entry is a minute old; record
the (pre-sleep) entry time `now` in the window and the post-sleep time in
`last_call_time`. -/
def wait_if_needed (s : RateLimiterState) (now : ℚ) : RateLimiterState × ℚ :=
  let calls := s.calls.filter (fun t => now - t < 60)
  let nowMs : ℤ := ⌊now * 1000⌋
  let timeSince : ℤ := nowMs - s.last_call_time
  let sleep1 : ℚ :=
    if timeSince < s.min_interval_ms then ((s.min_interval_ms - timeSince : ℤ) : ℚ) / 1000
    else 0
  let sleep2 : ℚ :=
    if s.max_calls_per_minute ≤ calls.length then
      match calls.head? with
      | some oldest => if 0 < 60 - (now - oldest) then 60 - (now - oldest) else 0
      | none => 0
    else 0
  let ret := now + sleep1 + sleep2
  ({ s with calls := calls ++ [now], last_call_time := ⌊ret * 1000⌋ }, ret)

/-- A sequence of calls through one limiter: call `n` enters the lock at
time `arrival n`; `runLimiter s arrival n` is the state after, and the
return time of, call `n` (0-based). -/
def runLimiter (s : RateLimiterState) (arrival : ℕ → ℚ) :
    ℕ → RateLimiterState × ℚ
  | 0 => wait_if_needed s (arrival 0)
  | n + 1 => wait_if_needed (runLimiter s arrival n).1 (arrival (n + 1))

/-- A freshly constructed limiter tuned to 60 calls/minute (the automation
engine's configuration; the minimum spacing is left arbitrary). -/
def freshLimiter (minIntervalMs : ℤ) : RateLimiterState :=
  { max_calls_per_minute := 60, min_interval_ms := minIntervalMs,
    calls := [], last_call_time := 0 }

/-! ## Theorems settling the claims -/

/-- C6: a `LendingOffer` with amount 150, rate 0.00015, symbol "fUSD" is
valid for every allowed period (2, 7, 14, 30, 60, 90, 120, 180, 365), and
an otherwise-identical offer is invalid whenever the amount is 149.99, the
period is 15, the symbol is "USD" (missing the `f` prefix), or the rate is
0. -/
theorem c6_offer_validity_boundary :
    (allowedPeriods.all (fun p =>
      LendingOffer.is_valid { symbol := "fUSD", amount := 150, rate := 15/100000, period := p })) = true
    ∧ (allowedPeriods.all (fun p =>
      !LendingOffer.is_valid { symbol := "fUSD", amount := 14999/100, rate := 15/100000, period := p })) = true
    ∧ LendingOffer.is_valid { symbol := "fUSD", amount := 150, rate := 15/100000, period := 15 } = false
    ∧ (allowedPeriods.all (fun p =>
      !LendingOffer.is_valid { symbol := "USD", amount := 150, rate := 15/100000, period := p })) = true
    ∧ (allowedPeriods.all (fun p =>
      !LendingOffer.is_valid { symbol := "fUSD", amount := 150, rate := 0, period := p })) = true := by
  refine ⟨?_, ?_, ?_, ?_, ?_⟩ <;>
    simp [allowedPeriods, LendingOffer.is_valid, pyStartsWith, List.all, List.isPrefixOf] <;>
    first | decide | norm_num

/-- C3: with base daily rate 0.0001, rate interval 0.000005, min order 150,
total 500, max orders 50, strict mode, zero amount-increment factor and no
balance limit, `generate_order_strategy` returns exactly the three orders
(150 @ 0.0001), (150 @ 0.000105), (200 @ 0.00011): order `i` is priced at
`base + i * interval` and the remainder 50 is folded into the last order. -/
theorem c3_ladder_determinism :
    generate_order_strategy (1/10000) (1/200000) 500 150 50 2 false 0 none =
      [{ amount := 150, daily_rate := 1/10000, period_days := 2, yearly_rate := 73/2000 },
       { amount := 150, daily_rate := 21/200000, period_days := 2, yearly_rate := 1533/40000 },
       { amount := 200, daily_rate := 11/100000, period_days := 2, yearly_rate := 803/20000 }] := by
  have hfloor : ⌊(500 : ℚ) / 150⌋ = 3 := by norm_num [Int.floor_eq_iff]
  have htn : Int.toNat 3 = 3 := rfl
  norm_num [generate_order_strategy, orderAmounts, hfloor, htn, buildOrders,
    ladderOrder, addToLast, List.replicate]

/-- C10: a submit request whose supplied rate is exactly 0 is priced as if
no rate had been supplied — `submitLendingOffer` behaves identically on the
two requests, the optimal rate it falls back to is strictly positive, and
with otherwise-valid parameters the zero-rate request succeeds with the
optimal rate, so a supplied rate of 0 by itself never triggers the
invalid-parameters rejection. -/
theorem c10_zero_rate_uses_optimal (md : MarketData)
    (req : SubmitLendingOfferRequest) (h : req.rate = some 0) :
    submitLendingOffer (some md) req =
        submitLendingOffer (some md) { req with rate := none }
    ∧ 0 < calculate_optimal_rate md
    ∧ ((150 ≤ req.amount ∧ allowedPeriods.contains req.period ∧
        pyStartsWith req.symbol "f" ∧ (1 < req.symbol.length)) →
        submitLendingOffer (some md) req =
          .ok { id := none, user_id := req.user_id, symbol := req.symbol,
                amount := req.amount, rate := calculate_optimal_rate md,
                period := req.period, status := "pending" }) := by
  have hpos : 0 < calculate_optimal_rate md :=
    lt_of_lt_of_le (by norm_num) (le_max_right _ _)
  refine ⟨by simp [submitLendingOffer, h], hpos, fun hv => ?_⟩
  have hvalid : LendingOffer.is_valid
      { id := none, user_id := req.user_id, symbol := req.symbol,
        amount := req.amount, rate := calculate_optimal_rate md,
        period := req.period, status := "pending" } = true := by
    have hmem : req.period ∈ allowedPeriods := by simpa using hv.2.1
    simp [LendingOffer.is_valid, hv.1, hmem, hv.2.2.1, hv.2.2.2, hpos]
  simp [submitLendingOffer, h, hvalid]

/-- Witness for C10 at a concrete input: market data with best bid 0.0002
and a request for 200 fUSD at rate 0, period 30. -/
theorem c10_witness :
    submitLendingOffer
        (some { symbol := "fUSD", best_bid_rate := 2/10000 })
        { user_id := "u1", symbol := "fUSD", amount := 200, rate := some 0, period := 30 } =
      .ok { id := none, user_id := "u1", symbol := "fUSD", amount := 200,
            rate := calculate_optimal_rate { symbol := "fUSD", best_bid_rate := 2/10000 },
            period := 30, status := "pending" } :=
  (c10_zero_rate_uses_optimal
      { symbol := "fUSD", best_bid_rate := 2/10000 }
      { user_id := "u1", symbol := "fUSD", amount := 200, rate := some 0, period := 30 }
      rfl).2.2 ⟨by norm_num, by decide, by decide, by decide⟩

/-- C4: `LendingApplicationService.cancel_lending_offer` never reaches the
repository — for every repository behavior and offer id it raises
`AttributeError`, because `__init__` stores only the two use-case
attributes and `self.lending_offer_repo` is undefined. -/
theorem c4_cancel_raises_attribute_error
    (updateStatus : String → String → Bool) (offer_id : String) :
    cancel_lending_offer updateStatus offer_id = .error .attributeError := rfl

/-- Closed form of the rebuild fold: starting from any accumulator, the fold
appends the active and completed offers (in order) and adds the
corresponding sums to the totals. -/
theorem foldl_rebuildStep_closed (offers : List LendingOffer) :
    ∀ acc : Portfolio,
      offers.foldl rebuildStep acc =
        { user_id := acc.user_id,
          total_lent := acc.total_lent +
            ((offers.filter (fun o => o.status = "active")).map (fun o => o.amount)).sum,
          total_earned := acc.total_earned +
            ((offers.filter (fun o => o.status = "completed")).map
              (fun o => o.daily_earnings * (o.period : ℚ))).sum,
          active_positions := acc.active_positions ++
            offers.filter (fun o => o.status = "active"),
          completed_positions := acc.completed_positions ++
            offers.filter (fun o => o.status = "completed") } := by
  induction offers with
  | nil => intro acc; simp
  | cons o rest ih =>
    intro acc
    by_cases ha : o.status = "active"
    · have hc : ¬ o.status = "completed" := by simp [ha]
      simp [List.foldl_cons, rebuildStep, Portfolio.add_position, ha, hc, ih,
        List.filter_cons, add_assoc]
    · by_cases hc : o.status = "completed"
      · simp [List.foldl_cons, rebuildStep, Portfolio.add_position, ha, hc, ih,
          List.filter_cons, add_assoc]
      · simp [List.foldl_cons, rebuildStep, Portfolio.add_position, ha, hc, ih,
          List.filter_cons]

/-- C7: the portfolio rebuild is a pure function of the stored offers —
executing the use case twice (or from any two stored portfolio states)
yields identical summary figures, each rebuild starts from zeroed totals and
empty position lists, `total_lent` is the sum of the active offers' amounts,
and `total_earned` is the sum over completed offers of
`daily_earnings × period`. -/
theorem c7_portfolio_recompute_idempotent (uid : String)
    (stored₁ stored₂ : Option Portfolio) (offers : List LendingOffer)
    (p : Portfolio) :
    executeGetPortfolioSummary uid stored₁ offers =
        executeGetPortfolioSummary uid stored₂ offers
    ∧ (rebuild_portfolio p offers).total_lent =
        ((offers.filter (fun o => o.status = "active")).map (fun o => o.amount)).sum
    ∧ (rebuild_portfolio p offers).total_earned =
        ((offers.filter (fun o => o.status = "completed")).map
          (fun o => o.daily_earnings * (o.period : ℚ))).sum
    ∧ (rebuild_portfolio p offers).active_positions =
        offers.filter (fun o => o.status = "active")
    ∧ (rebuild_portfolio p offers).completed_positions =
        offers.filter (fun o => o.status = "completed") := by
  have hclosed : ∀ q : Portfolio,
      rebuild_portfolio q offers =
        { user_id := q.user_id,
          total_lent :=
            ((offers.filter (fun o => o.status = "active")).map (fun o => o.amount)).sum,
          total_earned :=
            ((offers.filter (fun o => o.status = "completed")).map
              (fun o => o.daily_earnings * (o.period : ℚ))).sum,
          active_positions := offers.filter (fun o => o.status = "active"),
          completed_positions := offers.filter (fun o => o.status = "completed") } := by
    intro q
    unfold rebuild_portfolio
    rw [foldl_rebuildStep_closed]
    simp
  refine ⟨?_, by rw [hclosed], by rw [hclosed], by rw [hclosed], by rw [hclosed]⟩
  simp only [executeGetPortfolioSummary, hclosed]
  simp [summaryOf, Portfolio.calculate_daily_income, Portfolio.calculate_total_return]

/-- The matching rule asserted by the specification sentence for pending
offers (modelled from the claim's words, for comparison with the code):
the offer symbol equals the target case-insensitively, either bare or with
a single leading `f` prefix. -/
def claimedSymbolMatch (target offerSym : String) : Bool :=
  (pyUpper offerSym == pyUpper target) ||
    (pyUpper offerSym == pyUpper ("f" ++ target))

/-- The pending total the claim asserts: sum of the amounts of the offers
matching `claimedSymbolMatch`. -/
def claimedPendingTotal (target : String) (offers : List FundingOfferRec) : ℚ :=
  ((offers.filter (fun o => claimedSymbolMatch target o.symbol)).map
    (fun o => o.amount)).sum

/-- C8 counterexample: for target symbol "OFF" and a single resting offer
of 100 on "fOFF", the code's total is 0 — `"fOFF".upper().replace('F', '')`
is `"O"`, not `"OFF"` — while the claimed f-prefix-tolerant match would
count the offer and report 100. -/
theorem c8_counterexample :
    getPendingOffersTotal "OFF" (some [{ symbol := "fOFF", amount := 100 }]) none ≠
        some (claimedPendingTotal "OFF" [{ symbol := "fOFF", amount := 100 }])
      ∧ claimedSymbolMatch "OFF" "fOFF" = true
      ∧ getPendingOffersTotal "OFF" (some [{ symbol := "fOFF", amount := 100 }]) none =
        some 0 := by
  refine ⟨?_, by decide, ?_⟩ <;>
    simp [getPendingOffersTotal, totalPendingLoop, claimedPendingTotal,
      claimedSymbolMatch, stripF, pyUpper]

/-- The pending-offer accumulation loop, from any starting accumulator,
adds exactly the sum of the amounts of the offers whose uppercased symbol
with every `F` removed equals the uppercased target. -/
theorem totalPendingLoop_foldl (symbol : String) (offers : List FundingOfferRec) :
    ∀ acc : ℚ,
      offers.foldl
        (fun acc o =>
          if stripF (pyUpper o.symbol) = pyUpper symbol then acc + o.amount else acc) acc =
      acc + ((offers.filter
        (fun o => stripF (pyUpper o.symbol) = pyUpper symbol)).map
          (fun o => o.amount)).sum := by
  induction offers with
  | nil => intro acc; simp
  | cons o rest ih =>
    intro acc
    by_cases hm : stripF (pyUpper o.symbol) = pyUpper symbol
    · simp [hm, ih, add_assoc]
    · simp [hm, ih]

/-- C8 amended: `_get_pending_offers_total` includes an offer's amount in
the total exactly when the offer's **uppercased symbol with every letter
`F` removed** equals the uppercased target symbol (Python
`offer_symbol.upper().replace('F', '') == symbol.upper()`) — so a bare or
`f`-prefixed spelling of an F-free currency matches, but any `F` inside the
currency name is also deleted before comparison. -/
theorem c8_pending_total_match (symbol : String) (o : FundingOfferRec)
    (os : List FundingOfferRec) (allOffers : Option (List FundingOfferRec)) :
    totalPendingLoop symbol (o :: os) =
        (((o :: os).filter
          (fun q => stripF (pyUpper q.symbol) = pyUpper symbol)).map
            (fun q => q.amount)).sum
    ∧ getPendingOffersTotal symbol (some (o :: os)) allOffers =
        some (totalPendingLoop symbol (o :: os)) := by
  constructor
  · have := totalPendingLoop_foldl symbol (o :: os) 0
    simpa [totalPendingLoop] using this
  · rfl

/-- The wallet-balance lookup the claim asserts (modelled from the claim's
words, for comparison with the code): the first **funding-type** wallet
whose currency matches case-insensitively. -/
def claimedFundingBalance (symbol : String) (ws : List WalletRec) : Option ℚ :=
  (ws.find? (fun w =>
    (w.wallet_type == "funding") && (pyUpper w.currency == pyUpper symbol))).map
    (fun w => w.available_balance)

/-- C9 counterexample: a wallet list holding one exchange-type USD wallet
with available balance 42.  The code returns 42 for symbol "USD" (it never
reads the wallet type); the claim says a non-funding wallet must not match,
so the claimed result is `none`. -/
theorem c9_counterexample :
    getFundingWalletBalance "USD"
        (some [{ wallet_type := "exchange", currency := "USD", available_balance := 42 }]) ≠
      claimedFundingBalance "USD"
        [{ wallet_type := "exchange", currency := "USD", available_balance := 42 }]
    ∧ getFundingWalletBalance "USD"
        (some [{ wallet_type := "exchange", currency := "USD", available_balance := 42 }]) =
      some 42
    ∧ claimedFundingBalance "USD"
        [{ wallet_type := "exchange", currency := "USD", available_balance := 42 }] = none := by
  refine ⟨?_, ?_, ?_⟩ <;> decide

/-- C9 amended: `_get_funding_wallet_balance` returns the available balance
of the **first wallet of any type** whose currency equals the target symbol
case-insensitively, and `None` exactly when no wallet's currency matches;
the wallet type is never consulted. -/
theorem c9_wallet_balance_match (symbol : String) (ws : List WalletRec) :
    (∀ b : ℚ, getFundingWalletBalance symbol (some ws) = some b →
      ∃ w, w ∈ ws ∧ pyUpper w.currency = pyUpper symbol ∧ w.available_balance = b)
    ∧ (getFundingWalletBalance symbol (some ws) = none ↔
        ∀ w ∈ ws, pyUpper w.currency ≠ pyUpper symbol) := by
  constructor
  · intro b hb
    simp only [getFundingWalletBalance, Option.map_eq_some'] at hb
    obtain ⟨w, hfind, hval⟩ := hb
    refine ⟨w, List.mem_of_find?_eq_some hfind, ?_, hval⟩
    have := List.find?_some hfind
    simpa using this
  · simp only [getFundingWalletBalance, Option.map_eq_none', List.find?_eq_none]
    constructor
    · intro h w hw
      have := h w hw
      simpa using this
    · intro h w hw
      simpa using h w hw

/-- Witness for C9's amended statement at a concrete input: the
exchange-type USD wallet of the counterexample is the (type-ignoring) match
the code returns. -/
theorem c9_witness :
    ∃ w,
      w ∈ ([{ wallet_type := "exchange", currency := "USD", available_balance := 42 }] : List WalletRec) ∧
      pyUpper w.currency = pyUpper "USD" ∧ w.available_balance = 42 :=
  (c9_wallet_balance_match "USD"
    [{ wallet_type := "exchange", currency := "USD", available_balance := 42 }]).1 42
    (by decide)

/-- The balance-aware order loop is exactly the claim's shrink-or-drop
truncation applied to the balance-free loop's output, from any starting
index and running total. -/
theorem buildOrders_some_eq_truncate (base intv : ℚ) (per : ℤ) (f : ℚ) (b : ℚ) :
    ∀ (amounts : List ℚ) (i : ℕ) (tot : ℚ),
      buildOrders base intv per f (some b) amounts i tot =
        truncateToBalance b (buildOrders base intv per f none amounts i tot) tot := by
  intro amounts
  induction amounts with
  | nil => intro i tot; simp [buildOrders, truncateToBalance]
  | cons a rest ih =>
    intro i tot
    simp only [buildOrders, truncateToBalance, ladderOrder]
    by_cases hcross : b < tot + a * (1 + f * (i : ℚ))
    · by_cases hrem : 150 ≤ b - tot
      · simp [hcross, hrem]
      · simp [hcross, hrem]
    · by_cases hstop : b ≤ tot + a * (1 + f * (i : ℚ))
      · simp [hcross, hstop]
      · simp [hcross, hstop, ih]

/-- With a known balance, the running total plus the sum of the emitted
order amounts never exceeds the balance, from any starting total below
it. -/
theorem buildOrders_sum_le (base intv : ℚ) (per : ℤ) (f : ℚ) (b : ℚ) :
    ∀ (amounts : List ℚ) (i : ℕ) (tot : ℚ), tot ≤ b →
      tot + ((buildOrders base intv per f (some b) amounts i tot).map
        (fun o => o.amount)).sum ≤ b := by
  intro amounts
  induction amounts with
  | nil => intro i tot htot; simpa [buildOrders] using htot
  | cons a rest ih =>
    intro i tot htot
    simp only [buildOrders, ladderOrder]
    by_cases hcross : b < tot + a * (1 + f * (i : ℚ))
    · by_cases hrem : 150 ≤ b - tot
      · simp [hcross, hrem]
      · simpa [hcross, hrem] using htot
    · by_cases hstop : b ≤ tot + a * (1 + f * (i : ℚ))
      · push_neg at hcross
        simpa [hcross.not_lt, hstop, ← add_assoc] using hcross
      · push_neg at hcross hstop
        have := ih (i + 1) (tot + a * (1 + f * (i : ℚ))) (le_of_lt hstop)
        simp only [hcross.not_lt, if_false, hstop.not_le, List.map_cons, List.sum_cons]
        calc tot + (a * (1 + f * (i : ℚ)) +
              ((buildOrders base intv per f (some b) rest (i + 1)
                (tot + a * (1 + f * (i : ℚ)))).map (fun o => o.amount)).sum)
            = (tot + a * (1 + f * (i : ℚ))) +
              ((buildOrders base intv per f (some b) rest (i + 1)
                (tot + a * (1 + f * (i : ℚ)))).map (fun o => o.amount)).sum := by ring
          _ ≤ b := this

/-- C2: for every ladder configuration and every known (nonnegative)
effective balance, the balance-aware run of `generate_order_strategy` is
the shrink-or-drop truncation of the balance-free run — the first order
whose inclusion would cross the balance is shrunk to the exact remaining
headroom when that headroom is ≥ 150 and dropped together with all
subsequent orders otherwise — and consequently the cumulative amount of the
returned orders never exceeds the balance. -/
theorem c2_cumulative_amount_within_balance (base intv totalAmount minOrder : ℚ)
    (maxOrders : ℕ) (per : ℤ) (allowSmall : Bool) (f : ℚ) (b : ℚ) (hb : 0 ≤ b) :
    generate_order_strategy base intv totalAmount minOrder maxOrders per allowSmall f (some b) =
      truncateToBalance b
        (generate_order_strategy base intv totalAmount minOrder maxOrders per allowSmall f none) 0
    ∧ ((generate_order_strategy base intv totalAmount minOrder maxOrders per allowSmall f
        (some b)).map (fun o => o.amount)).sum ≤ b := by
  constructor
  · unfold generate_order_strategy
    by_cases hmin : totalAmount < (if allowSmall then (150 : ℚ) else minOrder)
    · simp [hmin, truncateToBalance]
    · simp [hmin, buildOrders_some_eq_truncate]
  · unfold generate_order_strategy
    by_cases hmin : totalAmount < (if allowSmall then (150 : ℚ) else minOrder)
    · simpa [hmin] using hb
    · have := buildOrders_sum_le base intv per f b
        (orderAmounts totalAmount minOrder maxOrders allowSmall) 0 0 hb
      simpa [hmin] using this

/-- Witness for C2 at a concrete input: the C3 ladder capped by an
effective balance of 400 (the third order is shrunk to the 100 remaining,
which is below 150, so it is dropped). -/
theorem c2_witness :
    generate_order_strategy (1/10000) (1/200000) 500 150 50 2 false 0 (some 400) =
      truncateToBalance 400
        (generate_order_strategy (1/10000) (1/200000) 500 150 50 2 false 0 none) 0
    ∧ ((generate_order_strategy (1/10000) (1/200000) 500 150 50 2 false 0
        (some 400)).map (fun o => o.amount)).sum ≤ 400 :=
  c2_cumulative_amount_within_balance (1/10000) (1/200000) 500 150 50 2 false 0 400
    (by norm_num)

/-- A list of integers that are all at least 1 sums to at least its
length. -/
theorem length_le_sum_of_one_le :
    ∀ l : List ℤ, (∀ x ∈ l, 1 ≤ x) → (l.length : ℤ) ≤ l.sum := by
  intro l
  induction l with
  | nil => intro _; simp
  | cons x rest ih =>
    intro h
    have hx := h x (List.mem_cons_self x rest)
    have hr := ih (fun y hy => h y (List.mem_cons_of_mem x hy))
    simp only [List.length_cons, List.sum_cons]
    push_cast
    linarith

/-- When every book row carries an order count of at least 1 — as every
order-book row of the exchange's wire format does — any period that
accumulated at least one rate sample has a positive order count. -/
theorem countFor_pos (book : List BookEntry) (trades : List TradeEntry) (p : ℤ)
    (hcount : ∀ e ∈ book, 1 ≤ e.count)
    (hne : ratesFor book trades p ≠ []) :
    1 ≤ countFor book trades p := by
  set B := (bookRows book).filter (fun e => e.period = p) with hB
  set T := (tradeRows trades).filter (fun t => t.period = p) with hT
  have hBc : ∀ e ∈ B, 1 ≤ e.count := by
    intro e he
    have : e ∈ book := by
      have h1 : e ∈ bookRows book := List.mem_of_mem_filter he
      have h2 : e ∈ book.take 100 := List.mem_of_mem_filter h1
      exact List.mem_of_mem_take h2
    exact hcount e this
  have hsumB : (B.length : ℤ) ≤ (B.map (fun e => e.count)).sum := by
    have := length_le_sum_of_one_le (B.map (fun e => e.count)) (by
      intro x hx
      obtain ⟨e, he, rfl⟩ := List.mem_map.mp hx
      exact hBc e he)
    simpa using this
  have hlen : 1 ≤ B.length + T.length := by
    have : (ratesFor book trades p).length = B.length + T.length := by
      simp [ratesFor, hB, hT]
    have hpos : 0 < (ratesFor book trades p).length := List.length_pos.mpr hne
    omega
  unfold countFor
  rw [← hB, ← hT]
  have hTlen : (0 : ℤ) ≤ T.length := by positivity
  push_cast at hsumB hlen ⊢
  linarith

/-- `analyze_market_rates` reports statistics exactly for the sampled
periods, and the reported `count` field is `countFor`. -/
theorem analyze_market_rates_eq_some (book : List BookEntry)
    (trades : List TradeEntry) (p : ℤ) (s : MarketRateStats)
    (h : analyze_market_rates book trades p = some s) :
    ratesFor book trades p ≠ [] ∧ s.count = countFor book trades p := by
  unfold analyze_market_rates at h
  by_cases hne : ratesFor book trades p = []
  · simp [hne] at h
  · refine ⟨hne, ?_⟩
    simp only [hne, if_false] at h
    cases h
    rfl

/-- Every recorded high-yield opportunity comes from a tier-table period
with reported statistics satisfying the high-yield test. -/
theorem mem_rawOpportunities (stats : ℤ → Option MarketRateStats)
    (o : HighYieldOpportunity) (ho : o ∈ rawOpportunities stats) :
    ∃ d ∈ tierDefinitions, ∃ p ∈ d.2, ∃ s, stats p = some s ∧ isHighYield p s := by
  simp only [rawOpportunities, List.mem_flatMap] at ho
  obtain ⟨d, hd, hmem⟩ := ho
  simp only [tierOpportunities, List.mem_filterMap] at hmem
  obtain ⟨p, hp, hsome⟩ := hmem
  cases hstat : stats p with
  | none => rw [hstat] at hsome; simp at hsome
  | some s =>
    rw [hstat] at hsome
    by_cases hhy : isHighYield p s
    · exact ⟨d, hd, p, hp, s, hstat, hhy⟩
    · simp [hhy] at hsome

/-- A tier-table period with reported statistics of positive count puts its
tier into the tier table: the tier's pooled rate list receives
`count` copies of the period's average rate. -/
theorem tiersOf_ne_nil (stats : ℤ → Option MarketRateStats)
    (d : String × List ℤ) (hd : d ∈ tierDefinitions) (p : ℤ) (hp : p ∈ d.2)
    (s : MarketRateStats) (hs : stats p = some s) (hc : 1 ≤ s.count) :
    tiersOf stats ≠ [] := by
  have htoNat : s.count.toNat ≠ 0 := by omega
  have hmem : s.avg_daily_rate ∈ tierRates stats d.2 := by
    simp only [tierRates, List.mem_flatMap]
    refine ⟨p, hp, ?_⟩
    rw [hs]
    simp [List.mem_replicate, htoNat]
  have htr : tierRates stats d.2 ≠ [] := by
    intro h
    rw [h] at hmem
    simp at hmem
  have hin : (d.1, mkTierStats stats d.2) ∈ tiersOf stats := by
    simp only [tiersOf, List.mem_filterMap]
    exact ⟨d, hd, by simp [htr]⟩
  intro h
  rw [h] at hin
  simp at hin

/-- With a nonempty tier table and a nonempty (sorted) high-yield list,
`generate_recommendation` adopts the first opportunity: its volume-weighted
rate and APY, zero increment, confidence 0.95. -/
theorem generate_recommendation_of_high_yield (symbol : String)
    (book : List BookEntry) (trades : List TradeEntry) (liquidity : Option ℚ)
    (best : HighYieldOpportunity) (rest : List HighYieldOpportunity)
    (hhy : (analyze_tiered_market symbol book trades liquidity).high_yield_opportunities =
      best :: rest)
    (htiers : (analyze_tiered_market symbol book trades liquidity).tiers ≠ []) :
    generate_recommendation symbol book trades liquidity =
      { symbol := symbol,
        recommended_daily_rate := best.volume_weighted_rate,
        recommended_yearly_rate := best.volume_weighted_apy,
        market_max_rate := best.volume_weighted_rate,
        increment := 0, confidence_score := 95/100 } := by
  simp only [analyze_tiered_market] at hhy htiers
  simp only [generate_recommendation, analyze_tiered_market]
  rw [hhy]
  simp only [htiers, if_false]

/-- C1: whenever `analyze_tiered_market` reports at least one high-yield
opportunity (an exact period ≥ 30 days with max APY ≥ 15% and total volume
> 1000), `generate_recommendation` returns the first opportunity of the
list sorted by (volume-weighted APY, total volume) descending: its
volume-weighted rate as the recommended (and market-max) daily rate, its
volume-weighted APY as the yearly rate, increment exactly 0, and confidence
exactly 0.95 — regardless of the `2d` tier's state.  `hcount` states the
order-book wire-format invariant that every book row carries an order count
of at least 1. -/
theorem c1_high_yield_precedence (symbol : String) (book : List BookEntry)
    (trades : List TradeEntry) (liquidity : Option ℚ)
    (hcount : ∀ e ∈ book, 1 ≤ e.count)
    (hne : (analyze_tiered_market symbol book trades
      liquidity).high_yield_opportunities ≠ []) :
    ∃ best rest,
      (analyze_tiered_market symbol book trades liquidity).high_yield_opportunities =
        best :: rest ∧
      generate_recommendation symbol book trades liquidity =
        { symbol := symbol,
          recommended_daily_rate := best.volume_weighted_rate,
          recommended_yearly_rate := best.volume_weighted_apy,
          market_max_rate := best.volume_weighted_rate,
          increment := 0, confidence_score := 95/100 } := by
  obtain ⟨best, rest, hcons⟩ :
      ∃ best rest, (analyze_tiered_market symbol book trades
        liquidity).high_yield_opportunities = best :: rest := by
    cases h : (analyze_tiered_market symbol book trades
        liquidity).high_yield_opportunities with
    | nil => exact absurd h hne
    | cons b r => exact ⟨b, r, rfl⟩
  have hraw : rawOpportunities (analyze_market_rates book trades) ≠ [] := by
    intro h
    have : (analyze_tiered_market symbol book trades
        liquidity).high_yield_opportunities = [] := by
      simp [analyze_tiered_market, sortedOpportunities, h]
    exact hne this
  obtain ⟨o, ho⟩ := List.exists_mem_of_ne_nil _ hraw
  obtain ⟨d, hd, p, hp, s, hs, _⟩ :=
    mem_rawOpportunities (analyze_market_rates book trades) o ho
  obtain ⟨hrates, hcnt⟩ := analyze_market_rates_eq_some book trades p s hs
  have hcpos : 1 ≤ s.count := by
    rw [hcnt]
    exact countFor_pos book trades p hcount hrates
  have htiers : (analyze_tiered_market symbol book trades liquidity).tiers ≠ [] := by
    simp only [analyze_tiered_market]
    exact tiersOf_ne_nil (analyze_market_rates book trades) d hd p hp s hs hcpos
  exact ⟨best, rest, hcons,
    generate_recommendation_of_high_yield symbol book trades liquidity best rest
      hcons htiers⟩

/-- Witness for C1 at a concrete market state: one book row of 2000 at
daily rate 0.001 (36.5% APY) on period 30 satisfies the high-yield test. -/
theorem c1_witness :
    ∃ best rest,
      (analyze_tiered_market "USD"
        [{ rate := 1/1000, period := 30, count := 1, amount := 2000 }] []
        none).high_yield_opportunities = best :: rest ∧
      generate_recommendation "USD"
        [{ rate := 1/1000, period := 30, count := 1, amount := 2000 }] [] none =
        { symbol := "USD",
          recommended_daily_rate := best.volume_weighted_rate,
          recommended_yearly_rate := best.volume_weighted_apy,
          market_max_rate := best.volume_weighted_rate,
          increment := 0, confidence_score := 95/100 } :=
  c1_high_yield_precedence "USD"
    [{ rate := 1/1000, period := 30, count := 1, amount := 2000 }] [] none
    (by decide)
    (by
      norm_num [analyze_tiered_market, sortedOpportunities, rawOpportunities,
        tierOpportunities, tierDefinitions, analyze_market_rates, ratesFor,
        volumesFor, countFor, bookRows, tradeRows, mkStats, isHighYield,
        mkOpportunity, pyMax, pyMin, pyMedian, pySortAsc, pySortDesc,
        List.insertionSort, List.orderedInsert, List.filterMap_cons,
        List.filter_cons, List.filter_nil])

/-- `wait_if_needed` returns no earlier than it was entered: both sleeps
are nonnegative. -/
theorem wait_if_needed_ret_ge (s : RateLimiterState) (now : ℚ) :
    now ≤ (wait_if_needed s now).2 := by
  simp only [wait_if_needed]
  have h1 : (0 : ℚ) ≤
      (if (⌊now * 1000⌋ - s.last_call_time) < s.min_interval_ms then
        ((s.min_interval_ms - (⌊now * 1000⌋ - s.last_call_time) : ℤ) : ℚ) / 1000
      else 0) := by
    split
    · next h =>
      have : (0 : ℚ) < ((s.min_interval_ms - (⌊now * 1000⌋ - s.last_call_time) : ℤ) : ℚ) := by
        exact_mod_cast Int.sub_pos.mpr h
      positivity
    · exact le_refl 0
  have h2 : (0 : ℚ) ≤
      (if s.max_calls_per_minute ≤ (s.calls.filter (fun t => now - t < 60)).length then
        match (s.calls.filter (fun t => now - t < 60)).head? with
        | some oldest => if 0 < 60 - (now - oldest) then 60 - (now - oldest) else 0
        | none => 0
      else 0) := by
    split
    · cases (s.calls.filter (fun t => now - t < 60)).head? with
      | none => exact le_refl 0
      | some oldest =>
        simp only
        split
        · next h => exact le_of_lt h
        · exact le_refl 0
    · exact le_refl 0
  linarith

/-- Arrivals that respect the sequencing of a run (each call entered no
earlier than the previous call returned) are nondecreasing up to the bound
covered by the sequencing hypothesis. -/
theorem arrival_mono (s0 : RateLimiterState) (arrival : ℕ → ℚ) (bound : ℕ)
    (hseq : ∀ n, n < bound → (runLimiter s0 arrival n).2 ≤ arrival (n + 1)) :
    ∀ n m, n ≤ m → m ≤ bound → arrival n ≤ arrival m := by
  have hstep : ∀ n, n < bound → arrival n ≤ arrival (n + 1) := by
    intro n hn
    have h1 : arrival n ≤ (runLimiter s0 arrival n).2 := by
      cases n with
      | zero => exact wait_if_needed_ret_ge s0 (arrival 0)
      | succ k => exact wait_if_needed_ret_ge (runLimiter s0 arrival k).1 (arrival (k + 1))
    exact le_trans h1 (hseq n hn)
  intro n m hnm hm
  induction m with
  | zero => cases Nat.le_zero.mp hnm; exact le_refl _
  | succ k ih =>
    rcases Nat.lt_or_ge n (k + 1) with hlt | hge
    · have hk : n ≤ k := Nat.lt_succ_iff.mp hlt
      have h1 := ih hk (Nat.le_of_succ_le hm)
      have h2 := hstep k (Nat.lt_of_succ_le hm)
      linarith
    · have : n = k + 1 := le_antisymm hnm hge
      rw [this]

/-- The sliding window after call `n`: the recorded entry times are the
arrival times of the calls so far, pruned by the most recent call's
60-second horizon (each prune is at least as strict as every earlier
one because arrivals are nondecreasing). -/
theorem runLimiter_calls_closed (s0 : RateLimiterState) (arrival : ℕ → ℚ)
    (bound : ℕ)
    (hmono : ∀ n m, n ≤ m → m ≤ bound → arrival n ≤ arrival m)
    (hcalls : s0.calls = []) :
    ∀ n, n ≤ bound →
      (runLimiter s0 arrival n).1.calls =
        ((List.range (n + 1)).map arrival).filter
          (fun t => arrival n - t < 60) := by
  intro n
  induction n with
  | zero =>
    intro _
    simp [runLimiter, wait_if_needed, hcalls, List.range_succ]
  | succ k ih =>
    intro hk
    have hik := ih (Nat.le_of_succ_le hk)
    show (wait_if_needed (runLimiter s0 arrival k).1 (arrival (k + 1))).1.calls = _
    simp only [wait_if_needed]
    rw [hik, List.filter_filter]
    have hcong :
        ((List.range (k + 1)).map arrival).filter
          (fun t => decide (arrival (k + 1) - t < 60) && decide (arrival k - t < 60)) =
        ((List.range (k + 1)).map arrival).filter
          (fun t => arrival (k + 1) - t < 60) := by
      apply List.filter_congr
      intro t ht
      obtain ⟨j, hj, rfl⟩ := List.mem_map.mp ht
      have hjk : j ≤ k := Nat.lt_succ_iff.mp (List.mem_range.mp hj)
      have hmono2 : arrival k ≤ arrival (k + 1) :=
        hmono k (k + 1) (Nat.le_succ k) hk
      by_cases hnew : arrival (k + 1) - arrival j < 60
      · have hold : arrival k - arrival j < 60 := by linarith
        simp [hnew, hold]
      · simp [hnew]
    rw [hcong]
    rw [List.range_succ (n := k + 1), List.map_append, List.filter_append]
    simp

/-- The minimum-spacing sleep is never negative. -/
theorem spacing_sleep_nonneg (mi lct : ℤ) (now : ℚ) :
    (0 : ℚ) ≤ (if (⌊now * 1000⌋ - lct) < mi then
      ((mi - (⌊now * 1000⌋ - lct) : ℤ) : ℚ) / 1000 else 0) := by
  split
  · next h =>
    have : (0 : ℚ) < ((mi - (⌊now * 1000⌋ - lct) : ℤ) : ℚ) := by
      exact_mod_cast Int.sub_pos.mpr h
    positivity
  · exact le_refl 0

/-- The per-minute quota is threaded unchanged through a run. -/
theorem runLimiter_max_eq (s0 : RateLimiterState) (arrival : ℕ → ℚ) :
    ∀ n, (runLimiter s0 arrival n).1.max_calls_per_minute =
      s0.max_calls_per_minute := by
  intro n
  induction n with
  | zero => rfl
  | succ k ih =>
    show (wait_if_needed (runLimiter s0 arrival k).1 (arrival (k + 1))).1.max_calls_per_minute = _
    simp only [wait_if_needed]
    exact ih

/-- C5: on a fresh limiter configured for 60 calls per minute (any minimum
spacing), if each of the first 60 calls is entered no earlier than its
predecessor returned, then the 61st call (index 60) does not return — i.e.
does not let its API call start — before 60 seconds have elapsed since the
1st call entered the limiter. -/
theorem c5_rate_limiter_throughput (mi : ℤ) (arrival : ℕ → ℚ)
    (hseq : ∀ n, n < 60 →
      (runLimiter (freshLimiter mi) arrival n).2 ≤ arrival (n + 1)) :
    arrival 0 + 60 ≤ (runLimiter (freshLimiter mi) arrival 60).2 := by
  have hmono := arrival_mono (freshLimiter mi) arrival 60 hseq
  have hstep : runLimiter (freshLimiter mi) arrival 60 =
      wait_if_needed (runLimiter (freshLimiter mi) arrival 59).1 (arrival 60) := rfl
  by_cases hfar : 60 ≤ arrival 60 - arrival 0
  · have hr := wait_if_needed_ret_ge
      (runLimiter (freshLimiter mi) arrival 59).1 (arrival 60)
    rw [hstep]
    linarith
  · push_neg at hfar
    have hclosed := runLimiter_calls_closed (freshLimiter mi) arrival 60 hmono rfl
      59 (by omega)
    have hfull : (runLimiter (freshLimiter mi) arrival 59).1.calls.filter
        (fun t => arrival 60 - t < 60) = (List.range 60).map arrival := by
      rw [hclosed, List.filter_filter]
      apply List.filter_eq_self.mpr
      intro t ht
      obtain ⟨j, hj, rfl⟩ := List.mem_map.mp ht
      have hjlt : j < 60 := List.mem_range.mp hj
      have h0j : arrival 0 ≤ arrival j := hmono 0 j (Nat.zero_le j) (by omega)
      have h59 : arrival 59 ≤ arrival 60 := hmono 59 60 (by omega) (le_refl 60)
      have hc1 : arrival 59 - arrival j < 60 := by linarith
      have hc2 : arrival 60 - arrival j < 60 := by linarith
      simp [hc1, hc2]
    have hmax : (runLimiter (freshLimiter mi) arrival 59).1.max_calls_per_minute = 60 :=
      runLimiter_max_eq (freshLimiter mi) arrival 59
    have hhead : ((List.range 60).map arrival).head? = some (arrival 0) := by
      rw [List.head?_map, show (List.range 60).head? = some 0 from by decide]
      rfl
    have hs1 := spacing_sleep_nonneg
      (runLimiter (freshLimiter mi) arrival 59).1.min_interval_ms
      (runLimiter (freshLimiter mi) arrival 59).1.last_call_time (arrival 60)
    have hpos : (0 : ℚ) < 60 - (arrival 60 - arrival 0) := by linarith
    rw [hstep]
    simp only [wait_if_needed, hfull, hmax, hhead, List.length_map,
      List.length_range, le_refl, if_true, hpos, if_pos]
    linarith

/-- Closed form of a run whose calls arrive 100 seconds apart (starting at
t = 100): every window entry is pruned before the next call, so each call
returns immediately at its arrival time. -/
theorem runLimiter_spaced_run (n : ℕ) :
    runLimiter (freshLimiter 100) (fun k => ((100 * (k + 1) : ℕ) : ℚ)) n =
      ({ max_calls_per_minute := 60, min_interval_ms := 100,
         calls := [((100 * (n + 1) : ℕ) : ℚ)],
         last_call_time := (100000 * (n + 1) : ℤ) },
       ((100 * (n + 1) : ℕ) : ℚ)) := by
  have hfloor : ∀ m : ℕ, ⌊((100 * (m + 1) : ℕ) : ℚ) * 1000⌋ = (100000 * (m + 1) : ℤ) := by
    intro m
    have h : ((100 * (m + 1) : ℕ) : ℚ) * 1000 = (((100000 * (m + 1) : ℤ)) : ℚ) := by
      push_cast
      ring
    rw [h, Int.floor_intCast]
  induction n with
  | zero =>
    show wait_if_needed (freshLimiter 100) _ = _
    simp only [wait_if_needed, freshLimiter, List.filter_nil, List.length_nil,
      List.nil_append]
    rw [hfloor 0]
    norm_num
  | succ k ih =>
    show wait_if_needed (runLimiter (freshLimiter 100)
      (fun j => ((100 * (j + 1) : ℕ) : ℚ)) k).1 _ = _
    rw [ih]
    simp only [wait_if_needed]
    have hprune : ¬(((100 * (k + 1 + 1) : ℕ) : ℚ) - ((100 * (k + 1) : ℕ) : ℚ) < 60) := by
      push_cast
      linarith
    have hfilter : List.filter
        (fun t => decide (((100 * (k + 1 + 1) : ℕ) : ℚ) - t < 60))
        [((100 * (k + 1) : ℕ) : ℚ)] = [] := by
      simp only [List.filter_cons, List.filter_nil, decide_eq_false hprune,
        Bool.false_eq_true, if_false]
    have hspace : ¬((100000 : ℤ) * (((k + 1 : ℕ) : ℤ) + 1) -
        (100000 : ℤ) * ((k : ℤ) + 1) < 100) := by
      push_cast
      linarith
    rw [hfilter, hfloor (k + 1), if_neg hspace]
    simp only [List.length_nil, List.nil_append, add_zero]
    rw [if_neg (show ¬((60 : ℕ) ≤ 0) from by norm_num)]
    rw [add_zero, hfloor (k + 1)]

/-- Witness for C5: calls arriving 100 seconds apart satisfy the sequencing
hypothesis, and the 61st call indeed returns at least 60 seconds after the
first. -/
theorem c5_witness :
    (fun k => ((100 * (k + 1) : ℕ) : ℚ)) 0 + 60 ≤
      (runLimiter (freshLimiter 100) (fun k => ((100 * (k + 1) : ℕ) : ℚ)) 60).2 :=
  c5_rate_limiter_throughput 100 (fun k => ((100 * (k + 1) : ℕ) : ℚ))
    (fun n _ => by
      simp only [runLimiter_spaced_run n]
      push_cast
      linarith)
